import Mathlib

/-!
Shallow embedding of the change-data-capture core in `cdc_system.py`:
the change-log data model, the reader operations (`get_pending_changes`,
`mark_as_synced`, `get_change_statistics`), the replication engine
(`replicate_changes` with its three apply helpers) and the health monitor
(`get_health_report`), together with theorems settling the specification
claims about them.

Modelling conventions:
- SQL `TIMESTAMP` values (`CURRENT_TIMESTAMP`) are modelled as an explicit
  `Nat` argument `now` passed to every operation that reads the clock.
- SQLite cell values are modelled by `Val` (integer, text or NULL); SQL
  equality, under which NULL compares unequal to everything, is `sqlEq`.
- The JSON serialization performed by `json_object` in the triggers and
  `json.loads` in `get_pending_changes` is modelled by the wrapper type
  `Serialized`: `json_object` wraps a mapping into its stored form and
  `json_loads` recovers it, keeping the stored form a distinct type from
  in-memory mappings exactly as TEXT cells are distinct from dicts.
- Per-record apply failures injected from outside (constraint violations,
  connectivity blips) are modelled by a predicate `inj : Nat → Bool` on
  `cdc_id`s: an injected record's statement raises, leaving the target
  table unchanged, and the except-branch of the loop swallows the error.
-/

namespace CDC

/-- A SQLite cell value: integer, text, or NULL. -/
inductive Val where
  | intV : Int → Val
  | strV : String → Val
  | nullV : Val
deriving DecidableEq

/-- SQL equality: `NULL = x` is not true for any `x` (the comparison yields
NULL, which is falsy in a WHERE clause); otherwise plain equality. -/
def sqlEq : Val → Val → Bool
  | Val.nullV, _ => false
  | _, Val.nullV => false
  | a, b => decide (a = b)

/-- A row image: ordered association of column name to value (a Python dict
keeps insertion order, duplicate keys impossible; lookups take the first
occurrence). -/
abbrev Mapping := List (String × Val)

/-- Look up a column's value in a mapping. -/
def lookupCol (m : Mapping) (k : String) : Option Val :=
  (m.find? (fun kv => kv.1 = k)).map (fun kv => kv.2)

/-- The stored (TEXT) form of a serialized row image, kept as a distinct
type from `Mapping` to model that `old_data`/`new_data` columns hold
serialized text, not in-memory dicts. -/
structure Serialized where
  payload : Mapping
deriving DecidableEq

/-- SQLite `json_object(...)` as used by the capture triggers: serialize a
row image into its stored TEXT form. -/
def json_object (m : Mapping) : Serialized := ⟨m⟩

/-- Python `json.loads` as used by `get_pending_changes`: recover the row
image from its stored TEXT form. -/
def json_loads (s : Serialized) : Mapping := s.payload

/-- One row of the `{table}_cdc` audit table. -/
structure LogRow where
  cdc_id : Nat
  operation : String
  record_id : Val
  old_data : Option Serialized
  new_data : Option Serialized
  changed_at : Nat
  synced : Bool
  sync_timestamp : Option Nat
deriving DecidableEq

/-- The state of one change log: the audit-table rows plus the
auto-increment counter that assigns the next `cdc_id`. -/
structure CDCLog where
  rows : List LogRow
  nextId : Nat
deriving DecidableEq

/-- Well-formedness maintained by the schema (AUTOINCREMENT primary key):
rows are in strictly increasing `cdc_id` order, all below the counter. -/
def CDCLog.WF (log : CDCLog) : Prop :=
  log.rows.Pairwise (fun a b => a.cdc_id < b.cdc_id) ∧
    ∀ r ∈ log.rows, r.cdc_id < log.nextId

/-- The capture-trigger append: `INSERT INTO {cdc_table} (operation,
record_id, old_data, new_data)` with `cdc_id` assigned by AUTOINCREMENT,
`changed_at` defaulted to the current time, `synced` defaulted to 0. -/
def appendChange (log : CDCLog) (op : String) (rid : Val)
    (old new : Option Mapping) (now : Nat) : CDCLog :=
  { rows := log.rows ++
      [{ cdc_id := log.nextId, operation := op, record_id := rid,
         old_data := old.map json_object, new_data := new.map json_object,
         changed_at := now, synced := false, sync_timestamp := none }],
    nextId := log.nextId + 1 }

/-- The ORDER BY key of the pending-changes query. -/
def rowLE (a b : LogRow) : Prop := a.cdc_id ≤ b.cdc_id

instance : DecidableRel rowLE := fun a b => Nat.decLe a.cdc_id b.cdc_id

instance : IsTotal LogRow rowLE := ⟨fun a b => Nat.le_total a.cdc_id b.cdc_id⟩

instance : IsTrans LogRow rowLE := ⟨fun _ _ _ h h' => Nat.le_trans h h'⟩

/-- `ORDER BY cdc_id` over a bag of rows. -/
def orderByCdcId (rs : List LogRow) : List LogRow := List.insertionSort rowLE rs

/-- The rows satisfying `WHERE synced = 0 ORDER BY cdc_id` (no LIMIT). -/
def pendingRows (log : CDCLog) : List LogRow :=
  orderByCdcId (log.rows.filter (fun r => r.synced = false))

/-- A change record as returned to Python by `get_pending_changes`: the
audit row with `old_data`/`new_data` deserialized back into mappings. -/
structure Change where
  cdc_id : Nat
  operation : String
  record_id : Val
  old_data : Option Mapping
  new_data : Option Mapping
  changed_at : Nat
  synced : Bool
  sync_timestamp : Option Nat
deriving DecidableEq

/-- The per-row body of the fetch loop: `dict(row)` followed by
`json.loads` on the non-NULL `old_data`/`new_data` cells. -/
def loadChange (r : LogRow) : Change :=
  { cdc_id := r.cdc_id, operation := r.operation, record_id := r.record_id,
    old_data := r.old_data.map json_loads,
    new_data := r.new_data.map json_loads,
    changed_at := r.changed_at, synced := r.synced,
    sync_timestamp := r.sync_timestamp }

/-- `CDCSystem.get_pending_changes(limit)`. The Python guard `if limit:`
appends a LIMIT clause only for a truthy (non-None, nonzero) limit, and a
negative SQLite LIMIT returns all rows, so only a positive limit caps. -/
def get_pending_changes (log : CDCLog) (limit : Option Int) : List Change :=
  let rows := pendingRows log
  let rows := match limit with
    | none => rows
    | some l => if l = 0 then rows else if 0 < l then rows.take l.toNat else rows
  rows.map loadChange

/-- The per-row effect of the `UPDATE ... SET synced = 1, sync_timestamp =
CURRENT_TIMESTAMP WHERE cdc_id IN (...)` statement. -/
def markRow (cdc_ids : List Nat) (now : Nat) (r : LogRow) : LogRow :=
  if r.cdc_id ∈ cdc_ids then
    { r with synced := true, sync_timestamp := some now }
  else r

/-- `CDCSystem.mark_as_synced(cdc_ids)`: early-returns on an empty list,
otherwise updates every row whose `cdc_id` is among the given ids. -/
def mark_as_synced (log : CDCLog) (cdc_ids : List Nat) (now : Nat) : CDCLog :=
  if cdc_ids.isEmpty then log
  else { log with rows := log.rows.map (markRow cdc_ids now) }

/-- One group of the statistics query: total, pending and synced counts. -/
structure OpStats where
  total : Nat
  pending : Nat
  synced : Nat
deriving DecidableEq

/-- The aggregate computed for one operation group by
`get_change_statistics`. -/
def statsFor (log : CDCLog) (op : String) : OpStats :=
  let rs := log.rows.filter (fun r => r.operation = op)
  { total := rs.length,
    pending := (rs.filter (fun r => r.synced = false)).length,
    synced := (rs.filter (fun r => r.synced = true)).length }

/-- The distinct operation values present in the log (the GROUP BY keys). -/
def opsOf (log : CDCLog) : List String :=
  (log.rows.map (fun r => r.operation)).dedup

/-- `CDCSystem.get_change_statistics()`: one `(operation, counts)` entry
per operation value present in the log. -/
def get_change_statistics (log : CDCLog) : List (String × OpStats) :=
  (opsOf log).map (fun op => (op, statsFor log op))

/-- The health report produced by `CDCMonitor.get_health_report`. -/
structure HealthReport where
  timestamp : Nat
  table : String
  total_changes : Nat
  pending_changes : Nat
  synced_changes : Nat
  by_operation : List (String × OpStats)
  health_status : String
deriving DecidableEq

/-- `CDCMonitor.get_health_report()`: sums pending and synced counts over
the per-operation statistics; `health_status` is the literal conditional
`'healthy' if total_pending < 1000 else 'warning'`. -/
def get_health_report (log : CDCLog) (tableName : String) (now : Nat) :
    HealthReport :=
  let stats := get_change_statistics log
  let total_pending := (stats.map (fun s => s.2.pending)).sum
  let total_synced := (stats.map (fun s => s.2.synced)).sum
  { timestamp := now, table := tableName,
    total_changes := total_pending + total_synced,
    pending_changes := total_pending,
    synced_changes := total_synced,
    by_operation := stats,
    health_status := if total_pending < 1000 then "healthy" else "warning" }

/-- The target table's contents: a bag of rows, each a column mapping.
The target schema (as set up by the repository's tests and demo) has the
column `id` as its primary key. -/
abbrev TargetTable := List Mapping

/-- The value of a row's `id` column, when present. -/
def rowId (row : Mapping) : Option Val := lookupCol row "id"

/-- Whether a row satisfies `WHERE id = v` (SQL semantics: a NULL or
missing `id` never matches). -/
def idMatches (row : Mapping) (v : Val) : Bool :=
  match rowId row with
  | some a => sqlEq a v
  | none => false

/-- `CDCReplicator._apply_insert`: `INSERT OR REPLACE INTO target
(data.keys) VALUES (data.values)`. An empty mapping renders an invalid
statement (`INSERT ... () VALUES ()`), which raises. With the `id` primary
key present and non-NULL the statement replaces any row carrying the same
`id`; with `id` absent or NULL, SQLite auto-assigns a fresh key so the row
is appended without replacing (the generated key is not materialized in
this model). -/
def apply_insert (t : TargetTable) (data : Mapping) : Option TargetTable :=
  if data.isEmpty then none
  else some (match rowId data with
    | some v => t.filter (fun row => !(idMatches row v)) ++ [data]
    | none => t ++ [data])

/-- The effect of the UPDATE's SET clause on one column of a matching
row: a non-`id` column named by a key of `data` takes `data`'s value; the
`id` column and columns not named in `data` are unchanged. -/
def setColsEntry (data : Mapping) (kv : String × Val) : String × Val :=
  if kv.1 = "id" then kv
  else match data.find? (fun dkv => dkv.1 = kv.1) with
    | some dkv => (kv.1, dkv.2)
    | none => kv

/-- The effect of the UPDATE's SET clause on one matching row. -/
def setCols (row : Mapping) (data : Mapping) : Mapping :=
  row.map (setColsEntry data)

/-- `CDCReplicator._apply_update`: `UPDATE target SET {k = v for non-id k
in data} WHERE id = data['id']`. A missing `id` key raises `KeyError`; a
`data` with no non-`id` key renders an empty SET clause, which raises.
(Target rows are assumed to carry the target table's columns, so the SET
clause's column references resolve.) -/
def apply_update (t : TargetTable) (data : Mapping) : Option TargetTable :=
  match lookupCol data "id" with
  | none => none
  | some idv =>
    if (data.filter (fun kv => kv.1 ≠ "id")).isEmpty then none
    else some (t.map (fun row =>
      if idMatches row idv then setCols row data else row))

/-- `CDCReplicator._apply_delete`: `DELETE FROM target WHERE id = ?` with
the change's `record_id`. -/
def apply_delete (t : TargetTable) (rid : Val) : TargetTable :=
  t.filter (fun row => !(idMatches row rid))

/-- The dispatch on `change['operation']` in the replicate loop, with the
intrinsic failure modes of each branch: accessing `.keys()` on a `None`
image raises, as do the statement-level errors modelled in the three
apply helpers. An unrecognized operation value takes no branch (and hence
succeeds without touching the target). -/
def applyChange (t : TargetTable) (c : Change) : Option TargetTable :=
  if c.operation = "INSERT" then
    match c.new_data with
    | none => none
    | some d => apply_insert t d
  else if c.operation = "UPDATE" then
    match c.new_data with
    | none => none
    | some d => apply_update t d
  else if c.operation = "DELETE" then
    some (apply_delete t c.record_id)
  else some t

/-- Whether a change applies without an intrinsic error; apply success is
independent of the target state (`applyChange_isSome`). -/
def applyOk (c : Change) : Bool :=
  if c.operation = "INSERT" then
    match c.new_data with
    | none => false
    | some d => !d.isEmpty
  else if c.operation = "UPDATE" then
    match c.new_data with
    | none => false
    | some d =>
      (lookupCol d "id").isSome && !(d.filter (fun kv => kv.1 ≠ "id")).isEmpty
  else true

/-- The target database connection: the table as seen by the connection's
uncommitted statements, and the durably committed state. -/
structure TargetConn where
  table : TargetTable
  durable : TargetTable
deriving DecidableEq

/-- `commit()` on the target connection. -/
def TargetConn.commit (c : TargetConn) : TargetConn :=
  { c with durable := c.table }

/-- One iteration of the replicate loop over the accumulated (target
table, replicated_ids) state: an injected failure raises inside the apply
statement (leaving the table unchanged); otherwise the change is applied
and, on success, its `cdc_id` appended to `replicated_ids`. Either kind
of exception is swallowed and the loop continues. -/
def replicateStep (inj : Nat → Bool) (acc : TargetTable × List Nat)
    (c : Change) : TargetTable × List Nat :=
  if inj c.cdc_id then acc
  else match applyChange acc.1 c with
    | some t2 => (t2, acc.2 ++ [c.cdc_id])
    | none => acc

/-- The outcome of one `replicate_changes` call: the return value, the
updated source log and target connection, and whether the mark-delivered
call and the target commit were executed. -/
structure ReplicateResult where
  count : Nat
  log : CDCLog
  target : TargetConn
  markCalled : Bool
  commitCalled : Bool
deriving DecidableEq

/-- `CDCReplicator.replicate_changes(batch_size)`: fetch up to
`batch_size` pending changes, apply each in order swallowing per-record
failures, then — only when at least one record applied — mark the
successful ids as synced and commit the target, returning the number of
successfully applied records. -/
def replicate_changes (log : CDCLog) (target : TargetConn)
    (inj : Nat → Bool) (batch_size : Int) (now : Nat) : ReplicateResult :=
  if (get_pending_changes log (some batch_size)).isEmpty then
    { count := 0, log := log, target := target,
      markCalled := false, commitCalled := false }
  else if ((get_pending_changes log (some batch_size)).foldl
      (replicateStep inj) (target.table, [])).2.isEmpty then
    { count := 0, log := log,
      target := { target with table :=
        ((get_pending_changes log (some batch_size)).foldl
          (replicateStep inj) (target.table, [])).1 },
      markCalled := false, commitCalled := false }
  else
    { count := ((get_pending_changes log (some batch_size)).foldl
        (replicateStep inj) (target.table, [])).2.length,
      log := mark_as_synced log
        ((get_pending_changes log (some batch_size)).foldl
          (replicateStep inj) (target.table, [])).2 now,
      target := TargetConn.commit { target with table :=
        ((get_pending_changes log (some batch_size)).foldl
          (replicateStep inj) (target.table, [])).1 },
      markCalled := true, commitCalled := true }

/-- A trigger object in the schema catalog: its name and the column list
its body was generated from. -/
structure TriggerObj where
  name : String
  cols : List String
deriving DecidableEq

/-- The schema catalog touched by `setup_trigger_based_cdc`: table names,
index names, and trigger objects. -/
structure DBSchema where
  tables : List String
  indexes : List String
  triggers : List TriggerObj
deriving DecidableEq

/-- `CREATE TABLE IF NOT EXISTS`: a no-op when the name exists. -/
def createTableIfNotExists (s : DBSchema) (n : String) : DBSchema :=
  if n ∈ s.tables then s else { s with tables := s.tables ++ [n] }

/-- `CREATE INDEX IF NOT EXISTS`: a no-op when the name exists. -/
def createIndexIfNotExists (s : DBSchema) (n : String) : DBSchema :=
  if n ∈ s.indexes then s else { s with indexes := s.indexes ++ [n] }

/-- `CREATE TRIGGER IF NOT EXISTS`: a no-op when a trigger of that name
exists (regardless of body). -/
def createTriggerIfNotExists (s : DBSchema) (n : String)
    (cols : List String) : DBSchema :=
  if s.triggers.any (fun t => t.name = n) then s
  else { s with triggers := s.triggers ++ [{ name := n, cols := cols }] }

/-- `CDCSystem._create_insert_trigger`. -/
def create_insert_trigger (s : DBSchema) (tableName : String)
    (cols : List String) : DBSchema :=
  createTriggerIfNotExists s (tableName ++ "_insert_trigger") cols

/-- `CDCSystem._create_update_trigger`. -/
def create_update_trigger (s : DBSchema) (tableName : String)
    (cols : List String) : DBSchema :=
  createTriggerIfNotExists s (tableName ++ "_update_trigger") cols

/-- `CDCSystem._create_delete_trigger`. -/
def create_delete_trigger (s : DBSchema) (tableName : String)
    (cols : List String) : DBSchema :=
  createTriggerIfNotExists s (tableName ++ "_delete_trigger") cols

/-- `CDCSystem.setup_trigger_based_cdc(columns)`: create the audit table,
its `(synced, cdc_id)` index, and the three capture triggers, each with
IF NOT EXISTS. -/
def setup_trigger_based_cdc (s : DBSchema) (tableName : String)
    (cols : List String) : DBSchema :=
  let cdcTable := tableName ++ "_cdc"
  let s := createTableIfNotExists s cdcTable
  let s := createIndexIfNotExists s ("idx_" ++ cdcTable ++ "_synced")
  let s := create_insert_trigger s tableName cols
  let s := create_update_trigger s tableName cols
  create_delete_trigger s tableName cols

/-- Invariant relation between a log row and its image under any core
operation: the captured payload is unchanged and delivery is never
reverted. -/
def immutPreserved (r r' : LogRow) : Prop :=
  r'.cdc_id = r.cdc_id ∧ r'.operation = r.operation ∧
  r'.record_id = r.record_id ∧ r'.old_data = r.old_data ∧
  r'.new_data = r.new_data ∧ r'.changed_at = r.changed_at ∧
  (r.synced = true → r'.synced = true)

/-- Whether a change passes the replicate loop without being counted as
failed: not injected to fail, and intrinsically applicable. -/
def okStep (inj : Nat → Bool) (c : Change) : Bool :=
  !(inj c.cdc_id) && applyOk c

/-- Number of rows of a given operation that a `mark_as_synced` call with
id set `S` moves from pending to delivered. -/
def markedCount (log : CDCLog) (S : List Nat) (op : String) : Nat :=
  (log.rows.filter (fun r =>
    decide (r.operation = op) && decide (r.synced = false) &&
      decide (r.cdc_id ∈ S))).length

/-- A log of `n` pending INSERT records, used to exercise the health
threshold at a concrete size. -/
def pendingOnlyLog (n : Nat) : CDCLog :=
  { rows := (List.range n).map (fun i =>
      { cdc_id := i + 1, operation := "INSERT", record_id := Val.intV 1,
        old_data := none, new_data := some (json_object [("id", Val.intV 1)]),
        changed_at := 0, synced := false, sync_timestamp := none }),
    nextId := n + 1 }

/-- A one-row log with a single pending INSERT, used as concrete input by
several witnesses and counterexamples. -/
def sampleRow : LogRow :=
  { cdc_id := 1, operation := "INSERT", record_id := Val.intV 1,
    old_data := none, new_data := some (json_object [("id", Val.intV 1)]),
    changed_at := 0, synced := false, sync_timestamp := none }

/-- A log holding just `sampleRow`, still pending. -/
def sampleLog : CDCLog := { rows := [sampleRow], nextId := 2 }

/-- A two-pending-row log (ids 1 and 2), used by the replication
witnesses. -/
def sampleLog2 : CDCLog :=
  { rows := [sampleRow,
      { cdc_id := 2, operation := "INSERT", record_id := Val.intV 2,
        old_data := none, new_data := some (json_object [("id", Val.intV 2)]),
        changed_at := 0, synced := false, sync_timestamp := none }],
    nextId := 3 }

/-- The change record the sample log's first row comes back as from
`get_pending_changes`. -/
def sampleChange : Change := loadChange sampleRow

section Lemmas

lemma json_loads_json_object (m : Mapping) : json_loads (json_object m) = m :=
  rfl

lemma markRow_cdc_id (S : List Nat) (now : Nat) (r : LogRow) :
    (markRow S now r).cdc_id = r.cdc_id := by
  unfold markRow; split <;> rfl

lemma markRow_operation (S : List Nat) (now : Nat) (r : LogRow) :
    (markRow S now r).operation = r.operation := by
  unfold markRow; split <;> rfl

lemma markRow_record_id (S : List Nat) (now : Nat) (r : LogRow) :
    (markRow S now r).record_id = r.record_id := by
  unfold markRow; split <;> rfl

lemma markRow_old_data (S : List Nat) (now : Nat) (r : LogRow) :
    (markRow S now r).old_data = r.old_data := by
  unfold markRow; split <;> rfl

lemma markRow_new_data (S : List Nat) (now : Nat) (r : LogRow) :
    (markRow S now r).new_data = r.new_data := by
  unfold markRow; split <;> rfl

lemma markRow_changed_at (S : List Nat) (now : Nat) (r : LogRow) :
    (markRow S now r).changed_at = r.changed_at := by
  unfold markRow; split <;> rfl

lemma markRow_of_mem {S : List Nat} (now : Nat) {r : LogRow}
    (h : r.cdc_id ∈ S) :
    markRow S now r = { r with synced := true, sync_timestamp := some now } := by
  unfold markRow; rw [if_pos h]

lemma markRow_of_not_mem {S : List Nat} (now : Nat) {r : LogRow}
    (h : r.cdc_id ∉ S) : markRow S now r = r := by
  unfold markRow; rw [if_neg h]

lemma markRow_synced (S : List Nat) (now : Nat) (r : LogRow) :
    (markRow S now r).synced = (decide (r.cdc_id ∈ S) || r.synced) := by
  unfold markRow
  by_cases h : r.cdc_id ∈ S
  · simp [h]
  · simp [h]

lemma mark_as_synced_rows (log : CDCLog) (S : List Nat) (now : Nat) :
    (mark_as_synced log S now).rows = log.rows.map (markRow S now) := by
  unfold mark_as_synced
  split
  · next h =>
    have hS : S = [] := List.isEmpty_iff.mp h
    subst hS
    have : ∀ r ∈ log.rows, markRow [] now r = r := by
      intro r _
      exact markRow_of_not_mem now (by simp)
    rw [List.map_congr_left this]
    simp
  · rfl

lemma mark_as_synced_nextId (log : CDCLog) (S : List Nat) (now : Nat) :
    (mark_as_synced log S now).nextId = log.nextId := by
  unfold mark_as_synced
  split <;> rfl

lemma loadChange_cdc_id (r : LogRow) : (loadChange r).cdc_id = r.cdc_id := rfl

lemma loadChange_synced (r : LogRow) : (loadChange r).synced = r.synced := rfl

lemma pendingRows_perm (log : CDCLog) :
    List.Perm (pendingRows log)
      (log.rows.filter (fun r => r.synced = false)) :=
  List.perm_insertionSort rowLE _

lemma pendingRows_sorted (log : CDCLog) :
    (pendingRows log).Pairwise rowLE :=
  List.sorted_insertionSort rowLE _

lemma mem_pendingRows {r : LogRow} {log : CDCLog} :
    r ∈ pendingRows log ↔ r ∈ log.rows ∧ r.synced = false := by
  rw [(pendingRows_perm log).mem_iff, List.mem_filter]
  simp

lemma get_pending_changes_none_eq (log : CDCLog) :
    get_pending_changes log none = (pendingRows log).map loadChange := rfl

lemma get_pending_changes_some_eq (log : CDCLog) (l : Int) :
    get_pending_changes log (some l) =
      (if l = 0 then pendingRows log
       else if 0 < l then (pendingRows log).take l.toNat
       else pendingRows log).map loadChange := rfl

lemma get_pending_changes_pos {l : Int} (log : CDCLog) (h : 0 < l) :
    get_pending_changes log (some l) =
      ((pendingRows log).take l.toNat).map loadChange := by
  rw [get_pending_changes_some_eq, if_neg (by omega), if_pos h]

lemma get_pending_changes_nonpos {l : Int} (log : CDCLog) (h : l ≤ 0) :
    get_pending_changes log (some l) = get_pending_changes log none := by
  rw [get_pending_changes_some_eq, get_pending_changes_none_eq]
  by_cases h0 : l = 0
  · rw [if_pos h0]
  · rw [if_neg h0, if_neg (by omega)]

lemma get_pending_changes_sub (log : CDCLog) (lim : Option Int)
    {c : Change} (h : c ∈ get_pending_changes log lim) :
    c ∈ get_pending_changes log none := by
  match lim with
  | none => exact h
  | some l =>
    by_cases hl : 0 < l
    · rw [get_pending_changes_pos log hl] at h
      rw [get_pending_changes_none_eq]
      obtain ⟨r, hr, hc⟩ := List.mem_map.mp h
      exact List.mem_map.mpr ⟨r, List.take_subset _ _ hr, hc⟩
    · rw [get_pending_changes_nonpos log (by omega)] at h
      exact h

lemma mem_get_pending_changes {c : Change} {log : CDCLog} {lim : Option Int}
    (h : c ∈ get_pending_changes log lim) :
    ∃ r ∈ log.rows, r.synced = false ∧ c = loadChange r := by
  have h' := get_pending_changes_sub log lim h
  rw [get_pending_changes_none_eq] at h'
  obtain ⟨r, hr, hc⟩ := List.mem_map.mp h'
  have := mem_pendingRows.mp hr
  exact ⟨r, this.1, this.2, hc.symm⟩

lemma pendingRows_eq_of_WF {log : CDCLog} (h : log.WF) :
    pendingRows log = log.rows.filter (fun r => r.synced = false) := by
  unfold pendingRows orderByCdcId
  apply List.Sorted.insertionSort_eq
  have hs : log.rows.Pairwise rowLE :=
    h.1.imp (fun hab => Nat.le_of_lt hab)
  exact List.Pairwise.sublist (List.filter_sublist _) hs

lemma pendingRows_pairwise_lt {log : CDCLog} (h : log.WF) :
    (pendingRows log).Pairwise (fun a b => a.cdc_id < b.cdc_id) := by
  rw [pendingRows_eq_of_WF h]
  exact List.Pairwise.sublist (List.filter_sublist _) h.1

lemma applyChange_isSome (t : TargetTable) (c : Change) :
    (applyChange t c).isSome = applyOk c := by
  unfold applyChange applyOk
  by_cases h1 : c.operation = "INSERT"
  · rw [if_pos h1, if_pos h1]
    cases c.new_data with
    | none => rfl
    | some d =>
      unfold apply_insert
      by_cases hd : d.isEmpty
      · simp [hd]
      · simp [hd]
  · rw [if_neg h1, if_neg h1]
    by_cases h2 : c.operation = "UPDATE"
    · rw [if_pos h2, if_pos h2]
      cases c.new_data with
      | none => rfl
      | some d =>
        cases hf : lookupCol d "id" with
        | none => simp [apply_update, hf]
        | some idv =>
          dsimp only
          unfold apply_update
          rw [hf]
          simp only [Option.isSome_some, Bool.true_and]
          split
          · next he => rw [he]; rfl
          · next he => rw [Bool.eq_false_iff.mpr he]; rfl
    · rw [if_neg h2, if_neg h2]
      by_cases h3 : c.operation = "DELETE"
      · simp [h3]
      · simp [h3]

lemma statsFor_total (log : CDCLog) (op : String) :
    (statsFor log op).total =
      log.rows.countP (fun r => decide (r.operation = op)) := by
  unfold statsFor
  rw [List.countP_eq_length_filter]

lemma statsFor_pending (log : CDCLog) (op : String) :
    (statsFor log op).pending =
      log.rows.countP (fun r =>
        decide (r.synced = false) && decide (r.operation = op)) := by
  unfold statsFor
  dsimp only
  rw [← List.countP_eq_length_filter, List.countP_filter]

lemma statsFor_syncedCount (log : CDCLog) (op : String) :
    (statsFor log op).synced =
      log.rows.countP (fun r =>
        decide (r.synced = true) && decide (r.operation = op)) := by
  unfold statsFor
  dsimp only
  rw [← List.countP_eq_length_filter, List.countP_filter]

lemma opStats_eq {a b : OpStats} (h1 : a.total = b.total)
    (h2 : a.pending = b.pending) (h3 : a.synced = b.synced) : a = b := by
  cases a; cases b
  simp only [OpStats.mk.injEq] at h1 h2 h3 ⊢
  exact ⟨h1, h2, h3⟩

lemma statsFor_map_eq (l : List LogRow) (g : LogRow → LogRow) (n m : Nat)
    (h : ∀ r ∈ l, (g r).operation = r.operation ∧ (g r).synced = r.synced)
    (op : String) :
    statsFor { rows := l.map g, nextId := n } op =
      statsFor { rows := l, nextId := m } op := by
  apply opStats_eq
  · rw [statsFor_total, statsFor_total]
    dsimp only
    rw [List.countP_map]
    exact List.countP_congr (fun r hr => by
      simp only [Function.comp_apply, (h r hr).1])
  · rw [statsFor_pending, statsFor_pending]
    dsimp only
    rw [List.countP_map]
    exact List.countP_congr (fun r hr => by
      simp only [Function.comp_apply, (h r hr).1, (h r hr).2])
  · rw [statsFor_syncedCount, statsFor_syncedCount]
    dsimp only
    rw [List.countP_map]
    exact List.countP_congr (fun r hr => by
      simp only [Function.comp_apply, (h r hr).1, (h r hr).2])

lemma opsOf_map_eq (l : List LogRow) (g : LogRow → LogRow) (n m : Nat)
    (h : ∀ r ∈ l, (g r).operation = r.operation) :
    opsOf { rows := l.map g, nextId := n } =
      opsOf { rows := l, nextId := m } := by
  unfold opsOf
  dsimp only
  rw [List.map_map]
  exact congrArg List.dedup (List.map_congr_left (fun r hr => by
    simp only [Function.comp_apply]
    exact h r hr))

lemma countP_pending_mark (S : List Nat) (now : Nat) (op : String) :
    ∀ l : List LogRow,
      l.countP (fun r => decide (r.synced = false) && decide (r.operation = op)) =
        (l.map (markRow S now)).countP
          (fun r => decide (r.synced = false) && decide (r.operation = op)) +
        l.countP (fun r => decide (r.operation = op) &&
          decide (r.synced = false) && decide (r.cdc_id ∈ S)) := by
  intro l
  rw [List.countP_map]
  induction l with
  | nil => simp
  | cons r l ih =>
    rw [List.countP_cons, List.countP_cons, List.countP_cons, ih]
    by_cases hm : r.cdc_id ∈ S <;> by_cases hs : r.synced <;>
      by_cases ho : r.operation = op <;>
      simp [markRow, hm, hs, ho, Function.comp_apply] <;> omega

lemma countP_synced_mark (S : List Nat) (now : Nat) (op : String) :
    ∀ l : List LogRow,
      (l.map (markRow S now)).countP
          (fun r => decide (r.synced = true) && decide (r.operation = op)) =
        l.countP (fun r => decide (r.synced = true) && decide (r.operation = op)) +
        l.countP (fun r => decide (r.operation = op) &&
          decide (r.synced = false) && decide (r.cdc_id ∈ S)) := by
  intro l
  rw [List.countP_map]
  induction l with
  | nil => simp
  | cons r l ih =>
    rw [List.countP_cons, List.countP_cons, List.countP_cons, ih]
    by_cases hm : r.cdc_id ∈ S <;> by_cases hs : r.synced <;>
      by_cases ho : r.operation = op <;>
      simp [markRow, hm, hs, ho, Function.comp_apply] <;> omega

lemma countP_total_mark (S : List Nat) (now : Nat) (op : String)
    (l : List LogRow) :
    (l.map (markRow S now)).countP (fun r => decide (r.operation = op)) =
      l.countP (fun r => decide (r.operation = op)) := by
  rw [List.countP_map]
  exact List.countP_congr (fun r hr => by
    simp only [Function.comp_apply, markRow_operation])

lemma CDCLog_eq {a b : CDCLog} (h1 : a.rows = b.rows)
    (h2 : a.nextId = b.nextId) : a = b := by
  cases a; cases b
  simp only [CDCLog.mk.injEq]
  exact ⟨h1, h2⟩

lemma statsFor_rows_eq {a b : CDCLog} (h : a.rows = b.rows) (op : String) :
    statsFor a op = statsFor b op := by
  unfold statsFor
  rw [h]

lemma opsOf_rows_eq {a b : CDCLog} (h : a.rows = b.rows) :
    opsOf a = opsOf b := by
  unfold opsOf
  rw [h]

lemma forall₂_map_self {α : Type} {R : α → α → Prop} (f : α → α)
    (l : List α) (h : ∀ a ∈ l, R a (f a)) : List.Forall₂ R l (l.map f) := by
  induction l with
  | nil => exact List.Forall₂.nil
  | cons a l ih =>
    exact List.Forall₂.cons (h a (List.mem_cons_self a l))
      (ih (fun x hx => h x (List.mem_cons_of_mem a hx)))

lemma countP_and_split {α : Type} (l : List α) (p q : α → Bool) :
    l.countP p =
      l.countP (fun a => p a && q a) + l.countP (fun a => p a && !q a) := by
  induction l with
  | nil => simp
  | cons a l ih =>
    rw [List.countP_cons, List.countP_cons, List.countP_cons, ih]
    by_cases hp : p a <;> by_cases hq : q a <;> simp [hp, hq] <;> omega

lemma sum_countP_ops (P : LogRow → Bool) :
    ∀ (keys : List String), keys.Nodup →
      ∀ (l : List LogRow), (∀ r ∈ l, P r = true → r.operation ∈ keys) →
      (keys.map (fun op =>
        l.countP (fun r => P r && decide (r.operation = op)))).sum =
        l.countP P := by
  intro keys
  induction keys with
  | nil =>
    intro _ l hcov
    simp only [List.map_nil, List.sum_nil]
    symm
    rw [List.countP_eq_zero]
    intro a ha hP
    exact absurd (hcov a ha hP) (List.not_mem_nil _)
  | cons k ks ih =>
    intro hnd l hcov
    have hkn : k ∉ ks := (List.nodup_cons.mp hnd).1
    have hnd' : ks.Nodup := (List.nodup_cons.mp hnd).2
    rw [List.map_cons, List.sum_cons]
    have hterm : ∀ op ∈ ks,
        l.countP (fun r => P r && decide (r.operation = op)) =
        (l.filter (fun r => !(decide (r.operation = k)))).countP
          (fun r => P r && decide (r.operation = op)) := by
      intro op hop
      rw [List.countP_filter]
      apply List.countP_congr
      intro r _
      by_cases hro : r.operation = op
      · have hne : ¬ op = k := fun hk => hkn (hk ▸ hop)
        have hne2 : ¬ r.operation = k := fun hk => hne (by rw [← hro, hk])
        simp [hro, hne, hne2]
      · simp [hro]
    rw [List.map_congr_left hterm]
    have hcov' : ∀ r ∈ l.filter (fun r => !(decide (r.operation = k))),
        P r = true → r.operation ∈ ks := by
      intro r hr hP
      have hm := List.mem_filter.mp hr
      have hne : ¬ r.operation = k := by
        have := hm.2
        simp at this
        exact this
      cases hcov r hm.1 hP with
      | head => exact absurd rfl hne
      | tail _ h => exact h
    rw [ih hnd' _ hcov', List.countP_filter]
    exact (countP_and_split l P (fun r => decide (r.operation = k))).symm

lemma mem_opsOf {r : LogRow} {log : CDCLog} (h : r ∈ log.rows) :
    r.operation ∈ opsOf log := by
  unfold opsOf
  rw [List.mem_dedup]
  exact List.mem_map_of_mem _ h

lemma health_pending_changes (log : CDCLog) (tb : String) (now : Nat) :
    (get_health_report log tb now).pending_changes =
      log.rows.countP (fun r => decide (r.synced = false)) := by
  have h0 : (get_health_report log tb now).pending_changes =
      ((get_change_statistics log).map (fun s => s.2.pending)).sum := rfl
  rw [h0]
  unfold get_change_statistics
  rw [List.map_map]
  have h1 : ((fun s : String × OpStats => s.2.pending) ∘
      (fun op => (op, statsFor log op))) =
      fun op => log.rows.countP (fun r =>
        decide (r.synced = false) && decide (r.operation = op)) := by
    funext op
    simp only [Function.comp_apply]
    exact statsFor_pending log op
  rw [h1]
  exact sum_countP_ops _ (opsOf log) (List.nodup_dedup _) log.rows
    (fun r hr _ => mem_opsOf hr)

lemma health_status_eq (log : CDCLog) (tb : String) (now : Nat) :
    (get_health_report log tb now).health_status =
      if (get_health_report log tb now).pending_changes < 1000
      then "healthy" else "warning" := rfl

lemma tables_createIndexIfNotExists (s : DBSchema) (n : String) :
    (createIndexIfNotExists s n).tables = s.tables := by
  unfold createIndexIfNotExists
  split <;> rfl

lemma tables_createTriggerIfNotExists (s : DBSchema) (n : String)
    (cols : List String) :
    (createTriggerIfNotExists s n cols).tables = s.tables := by
  unfold createTriggerIfNotExists
  split <;> rfl

lemma indexes_createTableIfNotExists (s : DBSchema) (n : String) :
    (createTableIfNotExists s n).indexes = s.indexes := by
  unfold createTableIfNotExists
  split <;> rfl

lemma indexes_createTriggerIfNotExists (s : DBSchema) (n : String)
    (cols : List String) :
    (createTriggerIfNotExists s n cols).indexes = s.indexes := by
  unfold createTriggerIfNotExists
  split <;> rfl

lemma triggers_createTableIfNotExists (s : DBSchema) (n : String) :
    (createTableIfNotExists s n).triggers = s.triggers := by
  unfold createTableIfNotExists
  split <;> rfl

lemma triggers_createIndexIfNotExists (s : DBSchema) (n : String) :
    (createIndexIfNotExists s n).triggers = s.triggers := by
  unfold createIndexIfNotExists
  split <;> rfl

lemma mem_tables_createTableIfNotExists (s : DBSchema) (n : String) :
    n ∈ (createTableIfNotExists s n).tables := by
  unfold createTableIfNotExists
  split
  · assumption
  · simp

lemma mem_indexes_createIndexIfNotExists (s : DBSchema) (n : String) :
    n ∈ (createIndexIfNotExists s n).indexes := by
  unfold createIndexIfNotExists
  split
  · assumption
  · simp

lemma any_createTriggerIfNotExists (s : DBSchema) (n : String)
    (cols : List String) :
    (createTriggerIfNotExists s n cols).triggers.any
      (fun t => t.name = n) = true := by
  unfold createTriggerIfNotExists
  split
  · assumption
  · simp

lemma any_mono_createTriggerIfNotExists (s : DBSchema) (m : String)
    (cols : List String) (p : TriggerObj → Bool)
    (h : s.triggers.any p = true) :
    (createTriggerIfNotExists s m cols).triggers.any p = true := by
  unfold createTriggerIfNotExists
  split
  · exact h
  · simp only [List.any_append, h, Bool.true_or]

lemma createTableIfNotExists_of_mem {s : DBSchema} {n : String}
    (h : n ∈ s.tables) : createTableIfNotExists s n = s := by
  unfold createTableIfNotExists
  rw [if_pos h]

lemma createIndexIfNotExists_of_mem {s : DBSchema} {n : String}
    (h : n ∈ s.indexes) : createIndexIfNotExists s n = s := by
  unfold createIndexIfNotExists
  rw [if_pos h]

lemma createTriggerIfNotExists_of_any {s : DBSchema} {n : String}
    {cols : List String}
    (h : s.triggers.any (fun t => t.name = n) = true) :
    createTriggerIfNotExists s n cols = s := by
  unfold createTriggerIfNotExists
  rw [if_pos h]

lemma setup_trigger_based_cdc_eq (s : DBSchema) (t : String)
    (c : List String) :
    setup_trigger_based_cdc s t c =
      create_delete_trigger
        (create_update_trigger
          (create_insert_trigger
            (createIndexIfNotExists
              (createTableIfNotExists s (t ++ "_cdc"))
              ("idx_" ++ (t ++ "_cdc") ++ "_synced"))
            t c)
          t c)
        t c := rfl

lemma foldl_replicateStep_snd (inj : Nat → Bool) :
    ∀ (cs : List Change) (t : TargetTable) (ids : List Nat),
      (cs.foldl (replicateStep inj) (t, ids)).2 =
        ids ++ (cs.filter (okStep inj)).map Change.cdc_id := by
  intro cs
  induction cs with
  | nil => intro t ids; simp
  | cons c cs ih =>
    intro t ids
    rw [List.foldl_cons]
    by_cases hi : inj c.cdc_id
    · have hstep : replicateStep inj (t, ids) c = (t, ids) := by
        unfold replicateStep; rw [if_pos hi]
      have hok : okStep inj c = false := by
        unfold okStep; rw [hi]; rfl
      rw [hstep, ih, List.filter_cons_of_neg (by rw [hok]; simp)]
    · have hi' : inj c.cdc_id = false := by
        exact Bool.not_eq_true _ ▸ (by simpa using hi)
      cases happ : applyChange t c with
      | none =>
        have hstep : replicateStep inj (t, ids) c = (t, ids) := by
          unfold replicateStep; rw [if_neg hi, happ]
        have hokv : applyOk c = false := by
          rw [← applyChange_isSome t c, happ]; rfl
        have hok : okStep inj c = false := by
          unfold okStep; rw [hi', hokv]; rfl
        rw [hstep, ih, List.filter_cons_of_neg (by rw [hok]; simp)]
      | some t2 =>
        have hstep : replicateStep inj (t, ids) c = (t2, ids ++ [c.cdc_id]) := by
          unfold replicateStep; rw [if_neg hi, happ]
        have hokv : applyOk c = true := by
          rw [← applyChange_isSome t c, happ]; rfl
        have hok : okStep inj c = true := by
          unfold okStep; rw [hi', hokv]; rfl
        rw [hstep, ih, List.filter_cons_of_pos (by rw [hok])]
        simp

lemma countP_not_add {α : Type} (p : α → Bool) (l : List α) :
    l.countP p + l.countP (fun a => !(p a)) = l.length := by
  induction l with
  | nil => simp
  | cons a l ih =>
    rw [List.countP_cons, List.countP_cons]
    by_cases hp : p a <;> simp [hp] <;> omega

lemma pairwise_lt_id_inj : ∀ (l : List LogRow),
    l.Pairwise (fun a b => a.cdc_id < b.cdc_id) →
    ∀ r1 ∈ l, ∀ r2 ∈ l, r1.cdc_id = r2.cdc_id → r1 = r2 := by
  intro l hl
  induction l with
  | nil =>
    intro r1 h1
    exact absurd h1 (List.not_mem_nil _)
  | cons a l ih =>
    intro r1 h1 r2 h2 heq
    have hpair := List.pairwise_cons.mp hl
    rcases List.mem_cons.mp h1 with h1a | h1l
    · rcases List.mem_cons.mp h2 with h2a | h2l
      · rw [h1a, h2a]
      · subst h1a
        have := hpair.1 r2 h2l
        omega
    · rcases List.mem_cons.mp h2 with h2a | h2l
      · subst h2a
        have := hpair.1 r1 h1l
        omega
      · exact ih hpair.2 r1 h1l r2 h2l heq

lemma sqlEq_self {v : Val} (hv : v ≠ Val.nullV) : sqlEq v v = true := by
  cases v with
  | intV a => simp [sqlEq]
  | strV s => simp [sqlEq]
  | nullV => exact absurd rfl hv

lemma setColsEntry_key (d : Mapping) (kv : String × Val) :
    (setColsEntry d kv).1 = kv.1 := by
  unfold setColsEntry
  by_cases h : kv.1 = "id"
  · rw [if_pos h]
  · rw [if_neg h]
    cases d.find? (fun dkv => dkv.1 = kv.1) with
    | none => rfl
    | some dkv => rfl

lemma lookupCol_setCols (d : Mapping) :
    ∀ (row : Mapping) (k : String) (w : Val), lookupCol row k = some w →
      lookupCol (setCols row d) k =
        some (if k = "id" then w else (lookupCol d k).getD w) := by
  intro row
  induction row with
  | nil =>
    intro k w h
    simp [lookupCol] at h
  | cons kv row ih =>
    intro k w h
    by_cases hk : kv.1 = k
    · have hw : kv.2 = w := by
        unfold lookupCol at h
        rw [List.find?_cons_of_pos _ (by simp [hk])] at h
        simpa using h
      subst hk
      unfold setCols lookupCol
      rw [List.map_cons,
        List.find?_cons_of_pos _ (by simp [setColsEntry_key])]
      unfold setColsEntry
      by_cases hid : kv.1 = "id"
      · rw [if_pos hid, if_pos hid]
        simp [hw]
      · rw [if_neg hid, if_neg hid]
        cases hf : d.find? (fun dkv => dkv.1 = kv.1) with
        | none => simp [hw]
        | some dkv => simp
    · have h' : lookupCol row k = some w := by
        unfold lookupCol at h
        rw [List.find?_cons_of_neg _ (by simp [hk])] at h
        exact h
      have := ih k w h'
      unfold setCols lookupCol at this ⊢
      rw [List.map_cons,
        List.find?_cons_of_neg _ (by simp [setColsEntry_key, hk])]
      exact this

lemma replicate_count_log (log : CDCLog) (target : TargetConn)
    (inj : Nat → Bool) (b : Int) (now : Nat)
    (hne : get_pending_changes log (some b) ≠ []) :
    (replicate_changes log target inj b now).count =
      (((get_pending_changes log (some b)).filter (okStep inj)).map
        Change.cdc_id).length ∧
    (replicate_changes log target inj b now).log =
      mark_as_synced log
        (((get_pending_changes log (some b)).filter (okStep inj)).map
          Change.cdc_id) now := by
  unfold replicate_changes
  rw [if_neg (fun h => hne (List.isEmpty_iff.mp h))]
  rw [foldl_replicateStep_snd inj (get_pending_changes log (some b))
    target.table []]
  rw [List.nil_append]
  split
  · next h =>
    rw [List.isEmpty_iff.mp h]
    exact ⟨rfl, rfl⟩
  · exact ⟨rfl, rfl⟩

lemma immutPreserved_refl (r : LogRow) : immutPreserved r r :=
  ⟨rfl, rfl, rfl, rfl, rfl, rfl, fun h => h⟩

lemma mark_immutPreserved (log : CDCLog) (S : List Nat) (now : Nat) :
    List.Forall₂ immutPreserved log.rows (mark_as_synced log S now).rows := by
  rw [mark_as_synced_rows]
  apply forall₂_map_self
  intro r _
  exact ⟨markRow_cdc_id S now r, markRow_operation S now r,
    markRow_record_id S now r, markRow_old_data S now r,
    markRow_new_data S now r, markRow_changed_at S now r,
    fun hs => by rw [markRow_synced, hs]; simp⟩

lemma markRow_markRow (T : List Nat) (t : Nat) (r : LogRow) :
    markRow T t (markRow T t r) = markRow T t r := by
  by_cases hm : r.cdc_id ∈ T
  · rw [markRow_of_mem t hm]
    exact markRow_of_mem t hm
  · rw [markRow_of_not_mem t hm]
    exact markRow_of_not_mem t hm

lemma mark_mark_same (lg : CDCLog) (T : List Nat) (t : Nat) :
    mark_as_synced (mark_as_synced lg T t) T t = mark_as_synced lg T t := by
  apply CDCLog_eq
  · rw [mark_as_synced_rows, mark_as_synced_rows, List.map_map]
    apply List.map_congr_left
    intro r _
    simp only [Function.comp_apply]
    exact markRow_markRow T t r
  · rw [mark_as_synced_nextId, mark_as_synced_nextId]

lemma mark_synced_pointwise (lg : CDCLog) (T : List Nat) (t t2 : Nat) :
    ∀ r ∈ (mark_as_synced lg T t).rows,
      (markRow T t2 r).operation = r.operation ∧
      (markRow T t2 r).synced = r.synced := by
  intro r hr
  refine ⟨markRow_operation T t2 r, ?_⟩
  rw [mark_as_synced_rows] at hr
  obtain ⟨r0, _, hr0⟩ := List.mem_map.mp hr
  by_cases hm : r0.cdc_id ∈ T
  · have hs : r.synced = true := by
      rw [← hr0, markRow_of_mem t hm]
    rw [markRow_synced, hs]
    simp
  · have hr' : r = r0 := by rw [← hr0, markRow_of_not_mem t hm]
    subst hr'
    rw [markRow_synced]
    simp [hm]

end Lemmas

section Claims

/-- C9: `get_pending_changes` with `limit = 0` applies no cap at all — a
zero limit is treated as no limit, and every pending record is returned
(the result coincides with the unlimited call and enumerates all
undelivered records). -/
theorem claim_C9_zero_limit_means_no_limit (log : CDCLog) :
    get_pending_changes log (some 0) = get_pending_changes log none ∧
    List.Perm (get_pending_changes log (some 0))
      ((log.rows.filter (fun r => r.synced = false)).map loadChange) := by
  have h := get_pending_changes_nonpos log (le_refl 0)
  refine ⟨h, ?_⟩
  rw [h, get_pending_changes_none_eq]
  exact (pendingRows_perm log).map loadChange

/-- C3 counterexample: with exactly 1000 pending records, the pending
count does not exceed 1000, yet the report's status is "warning" — the
code tests `pending < 1000`, so the claim's "warning exactly when the
pending count exceeds the threshold" fails at the threshold itself. -/
theorem claim_C3_counterexample :
    (get_health_report (pendingOnlyLog 1000) "users" 0).pending_changes = 1000 ∧
    (get_health_report (pendingOnlyLog 1000) "users" 0).health_status = "warning" ∧
    ¬ ((1000 : Nat) > 1000) := by
  have hp : (get_health_report (pendingOnlyLog 1000) "users" 0).pending_changes
      = 1000 := by
    rw [health_pending_changes]
    unfold pendingOnlyLog
    dsimp only
    rw [List.countP_map]
    have hc : ∀ i ∈ List.range 1000,
        ((fun r : LogRow => decide (r.synced = false)) ∘ (fun i =>
          { cdc_id := i + 1, operation := "INSERT", record_id := Val.intV 1,
            old_data := none,
            new_data := some (json_object [("id", Val.intV 1)]),
            changed_at := 0, synced := false,
            sync_timestamp := none : LogRow })) i = true ↔
        (fun _ : Nat => true) i = true := by
      intro i _
      simp
    rw [List.countP_congr hc, List.countP_true, List.length_range]
  refine ⟨hp, ?_, by omega⟩
  rw [health_status_eq, hp, if_neg (by omega)]

/-- C3 amended: the health status is "warning" exactly when the pending
count summed over all operations is at least 1000 (i.e. reaches the
threshold), and "healthy" exactly when it is strictly below; the summed
pending count equals the number of undelivered rows in the log; and a
report on an empty log has `total_changes = 0` and status "healthy". -/
theorem claim_C3_health_threshold (log : CDCLog) (tb : String) (now : Nat) :
    ((get_health_report log tb now).health_status = "warning" ↔
      1000 ≤ (get_health_report log tb now).pending_changes) ∧
    ((get_health_report log tb now).health_status = "healthy" ↔
      (get_health_report log tb now).pending_changes < 1000) ∧
    (get_health_report log tb now).pending_changes =
      log.rows.countP (fun r => decide (r.synced = false)) ∧
    (∀ k : Nat, (get_health_report { rows := [], nextId := k } tb now).total_changes = 0 ∧
      (get_health_report { rows := [], nextId := k } tb now).health_status = "healthy") := by
  refine ⟨?_, ?_, health_pending_changes log tb now, ?_⟩
  · rw [health_status_eq]
    by_cases h : (get_health_report log tb now).pending_changes < 1000
    · rw [if_pos h]
      constructor
      · intro hh; exact absurd hh (by decide)
      · intro hh; omega
    · rw [if_neg h]
      constructor
      · intro _; omega
      · intro _; rfl
  · rw [health_status_eq]
    by_cases h : (get_health_report log tb now).pending_changes < 1000
    · rw [if_pos h]
      exact ⟨fun _ => h, fun _ => rfl⟩
    · rw [if_neg h]
      constructor
      · intro hh; exact absurd hh (by decide)
      · intro hh; exact absurd hh h
  · intro k
    exact ⟨rfl, rfl⟩

/-- C8: `setup_trigger_based_cdc` is idempotent — a second call with the
same relation and columns leaves the schema exactly as one call: no
duplicate audit table, no duplicate index, no duplicate triggers. -/
theorem claim_C8_setup_idempotent (s : DBSchema) (t : String)
    (c : List String) :
    setup_trigger_based_cdc (setup_trigger_based_cdc s t c) t c =
      setup_trigger_based_cdc s t c := by
  set s1 := setup_trigger_based_cdc s t c with hs1
  have htab : (t ++ "_cdc") ∈ s1.tables := by
    rw [hs1, setup_trigger_based_cdc_eq]
    unfold create_delete_trigger create_update_trigger create_insert_trigger
    rw [tables_createTriggerIfNotExists, tables_createTriggerIfNotExists,
        tables_createTriggerIfNotExists, tables_createIndexIfNotExists]
    exact mem_tables_createTableIfNotExists _ _
  have hidx : ("idx_" ++ (t ++ "_cdc") ++ "_synced") ∈ s1.indexes := by
    rw [hs1, setup_trigger_based_cdc_eq]
    unfold create_delete_trigger create_update_trigger create_insert_trigger
    rw [indexes_createTriggerIfNotExists, indexes_createTriggerIfNotExists,
        indexes_createTriggerIfNotExists]
    exact mem_indexes_createIndexIfNotExists _ _
  have hins : s1.triggers.any
      (fun tr => tr.name = (t ++ "_insert_trigger")) = true := by
    rw [hs1, setup_trigger_based_cdc_eq]
    unfold create_delete_trigger create_update_trigger create_insert_trigger
    apply any_mono_createTriggerIfNotExists
    apply any_mono_createTriggerIfNotExists
    exact any_createTriggerIfNotExists _ _ _
  have hupd : s1.triggers.any
      (fun tr => tr.name = (t ++ "_update_trigger")) = true := by
    rw [hs1, setup_trigger_based_cdc_eq]
    unfold create_delete_trigger create_update_trigger create_insert_trigger
    apply any_mono_createTriggerIfNotExists
    exact any_createTriggerIfNotExists _ _ _
  have hdel : s1.triggers.any
      (fun tr => tr.name = (t ++ "_delete_trigger")) = true := by
    rw [hs1, setup_trigger_based_cdc_eq]
    unfold create_delete_trigger create_update_trigger create_insert_trigger
    exact any_createTriggerIfNotExists _ _ _
  rw [setup_trigger_based_cdc_eq]
  unfold create_delete_trigger create_update_trigger create_insert_trigger
  rw [createTableIfNotExists_of_mem htab,
      createIndexIfNotExists_of_mem hidx,
      createTriggerIfNotExists_of_any hins,
      createTriggerIfNotExists_of_any hupd,
      createTriggerIfNotExists_of_any hdel]

/-- C4 counterexample: marking the same id twice at different clock
values does not leave the log in the state of a single call — the second
call refreshes the already-delivered row's `sync_timestamp`, so the
strict "calling it twice leaves the log in the same state as calling it
once" (and "no change to the log" for already-delivered ids) fails. -/
theorem claim_C4_counterexample :
    mark_as_synced (mark_as_synced sampleLog [1] 0) [1] 1 ≠
      mark_as_synced sampleLog [1] 0 := by decide

/-- C4 amended: `mark_as_synced` is idempotent up to the delivery
timestamp — an empty id list is a no-op, unknown ids cause no error and
no change, repeating a call at the same clock value changes nothing, and
re-marking ids (at any later clock value) never changes the operation
groups or any per-operation statistics, so nothing is double-counted;
only the already-delivered rows' `sync_timestamp` can be refreshed. -/
theorem claim_C4_mark_idempotent_amended (log : CDCLog) (S : List Nat)
    (now : Nat)
    (hunk : ∀ i ∈ S, ∀ r ∈ log.rows, r.cdc_id ≠ i) :
    mark_as_synced log [] now = log ∧
    mark_as_synced log S now = log ∧
    (∀ (lg : CDCLog) (T : List Nat) (t : Nat),
      mark_as_synced (mark_as_synced lg T t) T t = mark_as_synced lg T t) ∧
    (∀ (lg : CDCLog) (T : List Nat) (t t2 : Nat),
      opsOf (mark_as_synced (mark_as_synced lg T t) T t2) =
        opsOf (mark_as_synced lg T t) ∧
      ∀ op, statsFor (mark_as_synced (mark_as_synced lg T t) T t2) op =
        statsFor (mark_as_synced lg T t) op) := by
  refine ⟨rfl, ?_, mark_mark_same, ?_⟩
  · apply CDCLog_eq
    · rw [mark_as_synced_rows]
      have h : ∀ r ∈ log.rows, markRow S now r = r := fun r hr =>
        markRow_of_not_mem now (fun hmem => hunk r.cdc_id hmem r hr rfl)
      rw [List.map_congr_left h]
      simp
    · exact mark_as_synced_nextId log S now
  · intro lg T t t2
    have hrows : (mark_as_synced (mark_as_synced lg T t) T t2).rows =
        (mark_as_synced lg T t).rows.map (markRow T t2) :=
      mark_as_synced_rows _ T t2
    constructor
    · calc opsOf (mark_as_synced (mark_as_synced lg T t) T t2)
          = opsOf (CDCLog.mk
              ((mark_as_synced lg T t).rows.map (markRow T t2)) 0) :=
            opsOf_rows_eq hrows
        _ = opsOf (CDCLog.mk (mark_as_synced lg T t).rows 0) :=
            opsOf_map_eq _ _ 0 0 (fun r _ => markRow_operation T t2 r)
        _ = opsOf (mark_as_synced lg T t) := opsOf_rows_eq rfl
    · intro op
      calc statsFor (mark_as_synced (mark_as_synced lg T t) T t2) op
          = statsFor (CDCLog.mk
              ((mark_as_synced lg T t).rows.map (markRow T t2)) 0) op :=
            statsFor_rows_eq hrows op
        _ = statsFor (CDCLog.mk (mark_as_synced lg T t).rows 0) op :=
            statsFor_map_eq _ _ 0 0 (mark_synced_pointwise lg T t t2) op
        _ = statsFor (mark_as_synced lg T t) op := statsFor_rows_eq rfl op

/-- C4 witness: the amended theorem applied to the one-row sample log
with the unknown id 5, discharging the unknown-ids hypothesis. -/
theorem claim_C4_witness :
    (∀ i ∈ ([5] : List Nat), ∀ r ∈ sampleLog.rows, r.cdc_id ≠ i) ∧
    mark_as_synced sampleLog [5] 0 = sampleLog :=
  ⟨by decide,
    (claim_C4_mark_idempotent_amended sampleLog [5] 0 (by decide)).2.1⟩

/-- C7: once appended, a record's payload (`operation`, `record_id`,
`old_image`, `new_image`, `captured_at`) never changes under any core
operation; appends leave existing rows untouched, and `mark_as_synced`
and `replicate_changes` only ever change `synced`/`sync_timestamp`, with
`synced` never reverting from true to false. -/
theorem claim_C7_record_immutability :
    (∀ (log : CDCLog) (op : String) (rid : Val) (old new : Option Mapping)
        (now : Nat),
      (appendChange log op rid old new now).rows.take log.rows.length =
        log.rows) ∧
    (∀ (log : CDCLog) (S : List Nat) (now : Nat),
      List.Forall₂ immutPreserved log.rows (mark_as_synced log S now).rows) ∧
    (∀ (log : CDCLog) (target : TargetConn) (inj : Nat → Bool) (b : Int)
        (now : Nat),
      List.Forall₂ immutPreserved log.rows
        (replicate_changes log target inj b now).log.rows) := by
  refine ⟨?_, mark_immutPreserved, ?_⟩
  · intro log op rid old new now
    unfold appendChange
    simp [List.take_left]
  · intro log target inj b now
    unfold replicate_changes
    split
    · exact List.forall₂_same.mpr (fun a _ => immutPreserved_refl a)
    · split
      · exact List.forall₂_same.mpr (fun a _ => immutPreserved_refl a)
      · exact mark_immutPreserved log _ now

/-- C5 counterexample: with one pending record and the supplied limit 0,
the result is not capped at 0 — the full pending list comes back, so the
claim's "capped at the given limit when one is supplied" fails for a zero
limit. -/
theorem claim_C5_counterexample :
    ¬ ((get_pending_changes sampleLog (some 0)).length ≤ 0) ∧
    get_pending_changes sampleLog (some 0) =
      get_pending_changes sampleLog none := by
  constructor
  · decide
  · decide

/-- C5 amended: `get_pending_changes` returns exactly the undelivered
records (as a permutation of the undelivered rows, deserialized), in
ascending `cdc_id` order for every limit; a positive supplied limit caps
the result as a prefix of the unlimited result, while a zero or negative
limit applies no cap; every returned change is the deserialization of an
undelivered stored row, and deserialization inverts serialization. -/
theorem claim_C5_pending_changes_amended (log : CDCLog) (l : Int) :
    List.Perm (get_pending_changes log none)
      ((log.rows.filter (fun r => r.synced = false)).map loadChange) ∧
    (∀ lim : Option Int, (get_pending_changes log lim).Pairwise
      (fun a b => a.cdc_id ≤ b.cdc_id)) ∧
    (0 < l → get_pending_changes log (some l) =
      (get_pending_changes log none).take l.toNat) ∧
    (l ≤ 0 → get_pending_changes log (some l) = get_pending_changes log none) ∧
    (∀ c ∈ get_pending_changes log none, ∃ r ∈ log.rows,
      r.synced = false ∧ c = loadChange r ∧
      c.old_data = r.old_data.map json_loads ∧
      c.new_data = r.new_data.map json_loads) ∧
    (∀ m : Mapping, json_loads (json_object m) = m) := by
  have hsorted : ∀ (rs : List LogRow), rs.Pairwise rowLE →
      (rs.map loadChange).Pairwise (fun a b => a.cdc_id ≤ b.cdc_id) := by
    intro rs hrs
    rw [List.pairwise_map]
    exact hrs.imp (fun h => h)
  refine ⟨?_, ?_, ?_, get_pending_changes_nonpos log, ?_, fun m => rfl⟩
  · rw [get_pending_changes_none_eq]
    exact (pendingRows_perm log).map loadChange
  · intro lim
    match lim with
    | none =>
      rw [get_pending_changes_none_eq]
      exact hsorted _ (pendingRows_sorted log)
    | some l' =>
      by_cases hl : 0 < l'
      · rw [get_pending_changes_pos log hl]
        exact hsorted _ ((pendingRows_sorted log).sublist
          (List.take_sublist _ _))
      · rw [get_pending_changes_nonpos log (by omega),
          get_pending_changes_none_eq]
        exact hsorted _ (pendingRows_sorted log)
  · intro hl
    rw [get_pending_changes_pos log hl, get_pending_changes_none_eq,
      List.map_take]
  · intro c hc
    obtain ⟨r, hr, hsy, hcr⟩ := mem_get_pending_changes hc
    exact ⟨r, hr, hsy, hcr, by rw [hcr]; rfl, by rw [hcr]; rfl⟩

/-- C5 witness: the amended theorem at the one-row sample log with the
positive limit 1, discharging the positivity hypothesis. -/
theorem claim_C5_witness :
    ((0 : Int) < 1) ∧
    get_pending_changes sampleLog (some 1) =
      (get_pending_changes sampleLog none).take (1 : Int).toNat :=
  ⟨by decide,
    (claim_C5_pending_changes_amended sampleLog 1).2.2.1 (by decide)⟩

/-- C6: after mark-delivered on a set of pending ids, each such id names
a row that is delivered with its delivery timestamp set; no such id ever
appears in a later pending fetch (for any limit); and in the statistics
every operation keeps its total while its pending count drops and its
delivered count rises by exactly the number of its rows marked. -/
theorem claim_C6_mark_delivered_effect (log : CDCLog) (S : List Nat)
    (now : Nat)
    (hS : ∀ i ∈ S, ∃ r ∈ log.rows, r.cdc_id = i ∧ r.synced = false) :
    (∀ i ∈ S, ∃ r ∈ (mark_as_synced log S now).rows, r.cdc_id = i ∧
      r.synced = true ∧ r.sync_timestamp = some now) ∧
    (∀ r ∈ (mark_as_synced log S now).rows, r.cdc_id ∈ S →
      r.synced = true ∧ r.sync_timestamp = some now) ∧
    (∀ lim : Option Int,
      ∀ c ∈ get_pending_changes (mark_as_synced log S now) lim,
        c.cdc_id ∉ S) ∧
    (opsOf (mark_as_synced log S now) = opsOf log ∧
     ∀ op, (statsFor (mark_as_synced log S now) op).total =
         (statsFor log op).total ∧
       (statsFor log op).pending =
         (statsFor (mark_as_synced log S now) op).pending +
           markedCount log S op ∧
       (statsFor (mark_as_synced log S now) op).synced =
         (statsFor log op).synced + markedCount log S op) := by
  have hmem : ∀ r ∈ (mark_as_synced log S now).rows, r.cdc_id ∈ S →
      r.synced = true ∧ r.sync_timestamp = some now := by
    intro r hr hrin
    rw [mark_as_synced_rows] at hr
    obtain ⟨r0, _, hr0⟩ := List.mem_map.mp hr
    have h0 : r0.cdc_id ∈ S := by
      rw [← markRow_cdc_id S now r0, hr0]
      exact hrin
    rw [← hr0, markRow_of_mem now h0]
    exact ⟨rfl, rfl⟩
  refine ⟨?_, hmem, ?_, ?_⟩
  · intro i hi
    obtain ⟨r, hr, hid, _⟩ := hS i hi
    refine ⟨markRow S now r, ?_, ?_, ?_, ?_⟩
    · rw [mark_as_synced_rows]
      exact List.mem_map_of_mem _ hr
    · rw [markRow_cdc_id]
      exact hid
    · rw [markRow_of_mem now (hid ▸ hi)]
    · rw [markRow_of_mem now (hid ▸ hi)]
  · intro lim c hc hcs
    obtain ⟨r, hr, hsy, hcr⟩ := mem_get_pending_changes hc
    have : r.synced = true := (hmem r hr (by rw [hcr] at hcs; exact hcs)).1
    rw [this] at hsy
    exact Bool.true_eq_false.mp hsy
  · have hrows : (mark_as_synced log S now).rows =
        log.rows.map (markRow S now) := mark_as_synced_rows log S now
    constructor
    · calc opsOf (mark_as_synced log S now)
          = opsOf (CDCLog.mk (log.rows.map (markRow S now)) 0) :=
            opsOf_rows_eq hrows
        _ = opsOf (CDCLog.mk log.rows 0) :=
            opsOf_map_eq _ _ 0 0 (fun r _ => markRow_operation S now r)
        _ = opsOf log := opsOf_rows_eq rfl
    · intro op
      have hmc : markedCount log S op =
          log.rows.countP (fun r => decide (r.operation = op) &&
            decide (r.synced = false) && decide (r.cdc_id ∈ S)) := by
        unfold markedCount
        rw [List.countP_eq_length_filter]
      refine ⟨?_, ?_, ?_⟩
      · rw [statsFor_total, statsFor_total, hrows, countP_total_mark]
      · rw [statsFor_pending, statsFor_pending, hrows, hmc]
        exact countP_pending_mark S now op log.rows
      · rw [statsFor_syncedCount, statsFor_syncedCount, hrows, hmc]
        exact countP_synced_mark S now op log.rows

/-- C6 witness: the theorem applied to the one-row sample log marking its
only (pending) id at clock value 7. -/
theorem claim_C6_witness :
    (∀ i ∈ ([1] : List Nat), ∃ r ∈ sampleLog.rows,
      r.cdc_id = i ∧ r.synced = false) ∧
    (∀ i ∈ ([1] : List Nat), ∃ r ∈ (mark_as_synced sampleLog [1] 7).rows,
      r.cdc_id = i ∧ r.synced = true ∧ r.sync_timestamp = some 7) :=
  ⟨by decide, (claim_C6_mark_delivered_effect sampleLog [1] 7 (by decide)).1⟩

/-- C10: when a fetched batch is non-empty and every record of it fails
to apply, `replicate_changes` returns 0, performs no mark-delivered call,
does not commit the target, and leaves the source log and the durable
target state unchanged; in general the target commit (and the
mark-delivered call) happens exactly when at least one record applied. -/
theorem claim_C10_all_fail_no_commit (log : CDCLog) (target : TargetConn)
    (inj : Nat → Bool) (b : Int) (now : Nat)
    (hne : get_pending_changes log (some b) ≠ [])
    (hfail : ∀ c ∈ get_pending_changes log (some b),
      inj c.cdc_id = true ∨ applyOk c = false) :
    (replicate_changes log target inj b now).count = 0 ∧
    (replicate_changes log target inj b now).markCalled = false ∧
    (replicate_changes log target inj b now).commitCalled = false ∧
    (replicate_changes log target inj b now).log = log ∧
    (replicate_changes log target inj b now).target.durable =
      target.durable ∧
    (∀ (lg : CDCLog) (tg : TargetConn) (ij : Nat → Bool) (bb : Int)
        (n : Nat),
      ((replicate_changes lg tg ij bb n).commitCalled = true ↔
        0 < (replicate_changes lg tg ij bb n).count) ∧
      (replicate_changes lg tg ij bb n).markCalled =
        (replicate_changes lg tg ij bb n).commitCalled) := by
  have hfilter : (get_pending_changes log (some b)).filter (okStep inj)
      = [] := by
    rw [List.filter_eq_nil_iff]
    intro c hc
    cases hfail c hc with
    | inl h => unfold okStep; rw [h]; simp
    | inr h => unfold okStep; rw [h]; simp
  have hids : ((get_pending_changes log (some b)).foldl
      (replicateStep inj) (target.table, [])).2 = [] := by
    rw [foldl_replicateStep_snd, hfilter]
    rfl
  have hmain : replicate_changes log target inj b now =
      { count := 0, log := log,
        target := { target with table :=
          ((get_pending_changes log (some b)).foldl
            (replicateStep inj) (target.table, [])).1 },
        markCalled := false, commitCalled := false } := by
    unfold replicate_changes
    rw [if_neg (fun h => hne (List.isEmpty_iff.mp h)),
      if_pos (by rw [hids]; rfl)]
  refine ⟨by rw [hmain], by rw [hmain], by rw [hmain], by rw [hmain],
    by rw [hmain], ?_⟩
  intro lg tg ij bb n
  unfold replicate_changes
  split
  · exact ⟨by simp, rfl⟩
  · split
    · exact ⟨by simp, rfl⟩
    · next h2 =>
      refine ⟨?_, rfl⟩
      simp only [true_iff]
      have hne2 : ((get_pending_changes lg (some bb)).foldl
          (replicateStep ij) (tg.table, [])).2 ≠ [] := by
        intro he
        exact h2 (by rw [he]; rfl)
      exact List.length_pos.mpr hne2

/-- C10 witness: the theorem at the one-row sample log with every apply
injected to fail, discharging both hypotheses. -/
theorem claim_C10_witness :
    get_pending_changes sampleLog (some 100) ≠ [] ∧
    (replicate_changes sampleLog (TargetConn.mk [] []) (fun _ => true)
      100 0).count = 0 :=
  ⟨by decide,
    (claim_C10_all_fail_no_commit sampleLog (TargetConn.mk [] [])
      (fun _ => true) 100 0 (by decide) (by decide)).1⟩

/-- C2: applying change records to the target — an INSERT upserts the
`new_image` keyed by the primary key `id` (the result contains the image,
any previously stored row with the same key is replaced, and reapplying
the same insert neither errors nor duplicates); an UPDATE sets the non-id
columns from `new_image` on exactly the rows whose `id` equals
`new_image`'s id value, leaving the `id` column and unnamed columns
untouched; a DELETE removes exactly the rows whose `id` equals the
change's `record_id`; and the replicate dispatch routes each operation
kind to the corresponding statement. -/
theorem claim_C2_apply_operations (t : TargetTable) (d : Mapping)
    (v rid : Val)
    (hid : lookupCol d "id" = some v) (hv : v ≠ Val.nullV)
    (hset : (d.filter (fun kv => kv.1 ≠ "id")).isEmpty = false) :
    (∃ t', apply_insert t d = some t' ∧ d ∈ t' ∧
      (∀ row ∈ t', row = d ∨ (row ∈ t ∧ idMatches row v = false)) ∧
      apply_insert t' d = some t') ∧
    (apply_update t d = some (t.map (fun row =>
        if idMatches row v then setCols row d else row)) ∧
      (∀ (row : Mapping) (k : String) (w : Val), lookupCol row k = some w →
        lookupCol (setCols row d) k =
          some (if k = "id" then w else (lookupCol d k).getD w))) ∧
    (∀ row, row ∈ apply_delete t rid ↔
      row ∈ t ∧ idMatches row rid = false) ∧
    (∀ c : Change, c.operation = "INSERT" → c.new_data = some d →
      applyChange t c = apply_insert t d) ∧
    (∀ c : Change, c.operation = "UPDATE" → c.new_data = some d →
      applyChange t c = apply_update t d) ∧
    (∀ c : Change, c.operation = "DELETE" →
      applyChange t c = some (apply_delete t c.record_id)) := by
  have hdne' : d.isEmpty = false := by
    cases hd : d with
    | nil =>
      rw [hd] at hid
      simp [lookupCol] at hid
    | cons kv d' => rfl
  have hrowd : rowId d = some v := hid
  have hmatchd : idMatches d v = true := by
    unfold idMatches
    rw [hrowd]
    exact sqlEq_self hv
  have hinsert : ∀ u : TargetTable, apply_insert u d =
      some (u.filter (fun row => !(idMatches row v)) ++ [d]) := by
    intro u
    unfold apply_insert
    rw [if_neg (by rw [hdne']; simp), hrowd]
  refine ⟨?_, ⟨?_, fun row k w h => lookupCol_setCols d row k w h⟩,
    ?_, ?_, ?_, ?_⟩
  · refine ⟨t.filter (fun row => !(idMatches row v)) ++ [d], hinsert t,
      List.mem_append_right _ (List.mem_singleton.mpr rfl), ?_, ?_⟩
    · intro row hrow
      rcases List.mem_append.mp hrow with hl | hr
      · right
        have hm := List.mem_filter.mp hl
        refine ⟨hm.1, ?_⟩
        have h2 := hm.2
        simp at h2
        exact h2
      · left
        exact List.mem_singleton.mp hr
    · rw [hinsert (t.filter (fun row => !(idMatches row v)) ++ [d])]
      congr 1
      rw [List.filter_append]
      have h1 : (t.filter (fun row => !(idMatches row v))).filter
          (fun row => !(idMatches row v)) =
          t.filter (fun row => !(idMatches row v)) :=
        List.filter_eq_self.mpr (fun a ha => (List.mem_filter.mp ha).2)
      have h2 : ([d] : TargetTable).filter (fun row => !(idMatches row v))
          = [] := by
        rw [List.filter_cons_of_neg (by rw [hmatchd]; simp)]
        rfl
      rw [h1, h2, List.append_nil]
  · unfold apply_update
    rw [hid]
    dsimp only
    rw [if_neg (by rw [hset]; simp)]
  · intro row
    rw [apply_delete, List.mem_filter]
    constructor
    · intro ⟨h1, h2⟩
      refine ⟨h1, ?_⟩
      simp at h2
      exact h2
    · intro ⟨h1, h2⟩
      refine ⟨h1, ?_⟩
      rw [h2]
      rfl
  · intro c hop hnd
    unfold applyChange
    rw [if_pos hop, hnd]
  · intro c hop hnd
    unfold applyChange
    rw [if_neg (by rw [hop]; decide), if_pos hop, hnd]
  · intro c hop
    unfold applyChange
    rw [if_neg (by rw [hop]; decide), if_neg (by rw [hop]; decide),
      if_pos hop]

/-- C2 witness: the theorem at a concrete one-row target, with the image
carrying id 1, discharging the id-present, non-null and non-empty-SET
hypotheses. -/
theorem claim_C2_witness :
    lookupCol [("id", Val.intV 1), ("name", Val.strV "b")] "id" =
      some (Val.intV 1) ∧
    (∀ row, row ∈ apply_delete
        [[("id", Val.intV 1), ("name", Val.strV "a")]] (Val.intV 1) ↔
      row ∈ [[("id", Val.intV 1), ("name", Val.strV "a")]] ∧
        idMatches row (Val.intV 1) = false) :=
  ⟨by decide,
    (claim_C2_apply_operations
      [[("id", Val.intV 1), ("name", Val.strV "a")]]
      [("id", Val.intV 1), ("name", Val.strV "b")]
      (Val.intV 1) (Val.intV 1)
      (by decide) (by decide) (by decide)).2.2.1⟩

/-- C1: when exactly one change `f` of a fetched batch fails to apply
(and every other record applies cleanly), the batch is not aborted: the
call returns one less than the number of fetched records; `f`'s row is
not marked delivered while every other fetched record's row is; `f` is
still produced by the next pending fetch; and every record still pending
afterwards has a sequence id at least `f`'s, so `f` is re-offered ahead
of all newer records. -/
theorem claim_C1_per_record_failure (log : CDCLog) (target : TargetConn)
    (inj : Nat → Bool) (b : Int) (now : Nat) (f : Change)
    (hwf : log.WF)
    (hf : f ∈ get_pending_changes log (some b))
    (hinj : ∀ n : Nat, inj n = decide (n = f.cdc_id))
    (hok : ∀ c ∈ get_pending_changes log (some b), applyOk c = true) :
    (replicate_changes log target inj b now).count + 1 =
      (get_pending_changes log (some b)).length ∧
    (∀ r ∈ (replicate_changes log target inj b now).log.rows,
      r.cdc_id = f.cdc_id → r.synced = false) ∧
    (∀ c ∈ get_pending_changes log (some b), c.cdc_id ≠ f.cdc_id →
      ∀ r ∈ (replicate_changes log target inj b now).log.rows,
        r.cdc_id = c.cdc_id → r.synced = true) ∧
    f ∈ get_pending_changes
      (replicate_changes log target inj b now).log none ∧
    (∀ c' ∈ get_pending_changes
        (replicate_changes log target inj b now).log none,
      f.cdc_id ≤ c'.cdc_id) := by
  have hfiltereq : (get_pending_changes log (some b)).filter (okStep inj) =
      (get_pending_changes log (some b)).filter
        (fun c => decide (¬ c.cdc_id = f.cdc_id)) := by
    apply List.filter_congr
    intro c hc
    unfold okStep
    rw [hinj c.cdc_id, hok c hc]
    by_cases h : c.cdc_id = f.cdc_id
    · simp [h]
    · simp [h]
  set idsv := ((get_pending_changes log (some b)).filter
    (okStep inj)).map Change.cdc_id with hidsv
  have hmem_ids : ∀ n, n ∈ idsv ↔
      ∃ c ∈ get_pending_changes log (some b),
        ¬ c.cdc_id = f.cdc_id ∧ c.cdc_id = n := by
    intro n
    rw [hidsv, hfiltereq]
    constructor
    · intro h
      obtain ⟨c, hc, hcn⟩ := List.mem_map.mp h
      have hm := List.mem_filter.mp hc
      exact ⟨c, hm.1, by simpa using hm.2, hcn⟩
    · intro ⟨c, hc, hne, hcn⟩
      exact List.mem_map.mpr
        ⟨c, List.mem_filter.mpr ⟨hc, by simpa using hne⟩, hcn⟩
  have hf_not_in_ids : f.cdc_id ∉ idsv := by
    intro h
    obtain ⟨c, _, hne, hcn⟩ := (hmem_ids f.cdc_id).mp h
    exact hne hcn
  obtain ⟨rowsPart, rest, hsplit, hch⟩ :
      ∃ rowsPart rest, pendingRows log = rowsPart ++ rest ∧
        get_pending_changes log (some b) = rowsPart.map loadChange := by
    by_cases hb : 0 < b
    · exact ⟨(pendingRows log).take b.toNat, (pendingRows log).drop b.toNat,
        (List.take_append_drop _ _).symm, get_pending_changes_pos log hb⟩
    · refine ⟨pendingRows log, [], (List.append_nil _).symm, ?_⟩
      rw [get_pending_changes_nonpos log (by omega)]
      exact get_pending_changes_none_eq log
  have hPlt := pendingRows_pairwise_lt hwf
  have hPlt' : (rowsPart ++ rest).Pairwise
      (fun a c => a.cdc_id < c.cdc_id) := by
    rw [← hsplit]
    exact hPlt
  have hPartlt : rowsPart.Pairwise (fun a c => a.cdc_id < c.cdc_id) :=
    hPlt'.sublist (List.sublist_append_left _ _)
  have hcross : ∀ a ∈ rowsPart, ∀ c ∈ rest, a.cdc_id < c.cdc_id :=
    fun a ha c hc => (List.pairwise_append.mp hPlt').2.2 a ha c hc
  have hch_ids : (get_pending_changes log (some b)).map Change.cdc_id =
      rowsPart.map (fun r => r.cdc_id) := by
    rw [hch, List.map_map]
    rfl
  have hchangesnodup :
      ((get_pending_changes log (some b)).map Change.cdc_id).Nodup := by
    rw [hch_ids]
    exact List.pairwise_map.mpr (hPartlt.imp (fun h => Nat.ne_of_lt h))
  have hcount1 : ((get_pending_changes log (some b)).map
      Change.cdc_id).count f.cdc_id = 1 :=
    List.count_eq_one_of_mem hchangesnodup (List.mem_map_of_mem _ hf)
  have hcountP1 : (get_pending_changes log (some b)).countP
      (fun c => decide (c.cdc_id = f.cdc_id)) = 1 := by
    rw [← hcount1, List.count_eq_countP, List.countP_map]
    apply List.countP_congr
    intro c _
    simp [Function.comp_apply]
  have hlen : idsv.length + 1 = (get_pending_changes log (some b)).length := by
    rw [hidsv, List.length_map, hfiltereq, ← List.countP_eq_length_filter]
    have hsplit2 := countP_not_add
      (fun c : Change => decide (c.cdc_id = f.cdc_id))
      (get_pending_changes log (some b))
    have hcongr : (get_pending_changes log (some b)).countP
        (fun c => decide (¬ c.cdc_id = f.cdc_id)) =
        (get_pending_changes log (some b)).countP
          (fun c => !(decide (c.cdc_id = f.cdc_id))) :=
      List.countP_congr (by intro c _; simp)
    rw [hcongr]
    omega
  have hne : get_pending_changes log (some b) ≠ [] :=
    List.ne_nil_of_mem hf
  obtain ⟨hcount, hlog⟩ := replicate_count_log log target inj b now hne
  rw [← hidsv] at hcount hlog
  obtain ⟨rf, hrfmem, hrfsy, hrf⟩ := mem_get_pending_changes hf
  have hfid_rf : f.cdc_id = rf.cdc_id := by
    rw [hrf]
    exact loadChange_cdc_id rf
  refine ⟨?_, ?_, ?_, ?_, ?_⟩
  · rw [hcount]
    exact hlen
  · intro r hr hrid
    rw [hlog, mark_as_synced_rows] at hr
    obtain ⟨r0, hr0mem, hr0⟩ := List.mem_map.mp hr
    have hr0id : r0.cdc_id = f.cdc_id := by
      rw [← markRow_cdc_id idsv now r0, hr0, hrid]
    have hnotin : r0.cdc_id ∉ idsv := by
      rw [hr0id]
      exact hf_not_in_ids
    have hr0eq : r = r0 := by
      rw [← hr0, markRow_of_not_mem now hnotin]
    have hr0rf : r0 = rf :=
      pairwise_lt_id_inj log.rows hwf.1 r0 hr0mem rf hrfmem
        (by rw [hr0id, hfid_rf])
    rw [hr0eq, hr0rf]
    exact hrfsy
  · intro c hc hcne r hr hrid
    have hcin : c.cdc_id ∈ idsv := (hmem_ids c.cdc_id).mpr ⟨c, hc, hcne, rfl⟩
    rw [hlog, mark_as_synced_rows] at hr
    obtain ⟨r0, hr0mem, hr0⟩ := List.mem_map.mp hr
    have hr0id : r0.cdc_id = c.cdc_id := by
      rw [← markRow_cdc_id idsv now r0, hr0, hrid]
    have hin : r0.cdc_id ∈ idsv := by
      rw [hr0id]
      exact hcin
    rw [← hr0, markRow_of_mem now hin]
  · rw [hlog, get_pending_changes_none_eq]
    apply List.mem_map.mpr
    refine ⟨rf, ?_, hrf.symm⟩
    apply mem_pendingRows.mpr
    refine ⟨?_, hrfsy⟩
    rw [mark_as_synced_rows]
    have hmk : markRow idsv now rf = rf :=
      markRow_of_not_mem now (by rw [← hfid_rf]; exact hf_not_in_ids)
    rw [← hmk]
    exact List.mem_map_of_mem _ hrfmem
  · intro c' hc'
    obtain ⟨r', hr'mem, hr'sy, hc'r⟩ := mem_get_pending_changes hc'
    rw [hlog, mark_as_synced_rows] at hr'mem
    obtain ⟨r0, hr0mem, hr0⟩ := List.mem_map.mp hr'mem
    by_cases hin : r0.cdc_id ∈ idsv
    · have hs : r'.synced = true := by
        rw [← hr0, markRow_of_mem now hin]
      exact absurd (hr'sy ▸ hs) (by decide)
    · have hr'eq : r' = r0 := by
        rw [← hr0, markRow_of_not_mem now hin]
      have hr0sy : r0.synced = false := by
        rw [← hr'eq]
        exact hr'sy
      have hr0P : r0 ∈ pendingRows log := mem_pendingRows.mpr ⟨hr0mem, hr0sy⟩
      rw [hsplit] at hr0P
      have hcid : c'.cdc_id = r0.cdc_id := by
        rw [hc'r, hr'eq]
        exact loadChange_cdc_id r0
      rcases List.mem_append.mp hr0P with hpart | hrest
      · have hcmem : loadChange r0 ∈ get_pending_changes log (some b) := by
          rw [hch]
          exact List.mem_map_of_mem _ hpart
        by_cases hfe : (loadChange r0).cdc_id = f.cdc_id
        · have h0 : r0.cdc_id = f.cdc_id := (loadChange_cdc_id r0) ▸ hfe
          omega
        · have hidnot : (loadChange r0).cdc_id ∉ idsv := by
            rw [loadChange_cdc_id]
            exact hin
          exact absurd ((hmem_ids (loadChange r0).cdc_id).mpr
            ⟨loadChange r0, hcmem, hfe, rfl⟩) hidnot
      · obtain ⟨rf', hrf'mem, hrf'⟩ := List.mem_map.mp (hch ▸ hf)
        have hlt : rf'.cdc_id < r0.cdc_id := hcross rf' hrf'mem r0 hrest
        have hfid : f.cdc_id = rf'.cdc_id := by
          rw [← hrf']
          exact loadChange_cdc_id rf'
        omega

/-- C1 witness: the theorem at a two-pending-record log where record 1 is
injected to fail; the call then returns 1 = 2 − 1. -/
theorem claim_C1_witness :
    sampleChange ∈ get_pending_changes sampleLog2 (some 100) ∧
    (replicate_changes sampleLog2 (TargetConn.mk [] [])
      (fun n => decide (n = 1)) 100 5).count + 1 =
      (get_pending_changes sampleLog2 (some 100)).length :=
  ⟨by decide,
    (claim_C1_per_record_failure sampleLog2 (TargetConn.mk [] [])
      (fun n => decide (n = 1)) 100 5 sampleChange
      (by constructor
          · decide
          · decide)
      (by decide) (fun n => rfl) (by decide)).1⟩

end Claims

end CDC
